import Mathlib

/-!
Verification of the phonical audio playback pipeline (src/main.go).

The pipeline consists of:
* a fixed 26-entry character-to-file mapping (`phonicsMap`),
* a bounded FIFO playback queue of capacity 100 (`playQueue`, a buffered
  Go channel; enqueue is the non-blocking `select`/`default` in
  `handleKeyPress`),
* a memoizing sound cache (`soundCache` populated by `loadSound`),
* a single-consumer playback loop (`soundPlayer` calling `playSound`,
  which blocks on a done channel until the clip finishes).

External effects (the embedded filesystem, the beep mp3/wav decoders and
the speaker device) are abstracted as an `Env` of oracle functions; the
control flow of every Go function is translated statement by statement.
-/

namespace Phonical

/-- beep.Format: sample rate, channel count, bytes per sample. -/
structure Format where
  sampleRate : Nat
  numChannels : Nat
  precision : Nat
deriving DecidableEq, Repr

/-- The format hard-coded in `initSpeaker` and in the cache-hit branch of
`loadSound`: 44100 Hz, 2 channels, 2-byte samples. -/
def canonicalFormat : Format :=
  { sampleRate := 44100, numChannels := 2, precision := 2 }

/-- beep.Buffer: the decoded sample data together with the format the
buffer was created with (`beep.NewBuffer(format)` followed by
`buffer.Append(streamer)`). -/
structure Buffer where
  format : Format
  samples : List Int
deriving DecidableEq, Repr

/-- The external world of `loadSound` and `playSound`: whether opening an
embedded file fails (and with which error), what the mp3 and wav decoders
produce for a given file, and whether `speaker.Init` succeeds. -/
structure Env where
  openErr : String → Option String
  mp3Decode : String → Except String Buffer
  wavDecode : String → Except String Buffer
  speakerInitOK : Bool

/-- The sound cache: the Go `map[string]*beep.Buffer` as an association
list (entries are only ever inserted for absent keys, so front insertion
agrees with map assignment). -/
def Cache : Type := List (String × Buffer)

/-- Lookup in the sound cache (`soundCache[soundPath]`). -/
def lookupCache : List (String × Buffer) → String → Option Buffer
  | [], _ => none
  | (k, v) :: rest, key => if key = k then some v else lookupCache rest key

/-- The fixed letter-to-file table at src/main.go lines 25-52. -/
def phonicsMap : List (Char × String) :=
  [('a', "a.wav"), ('b', "b.wav"), ('c', "c.wav"), ('d', "d.wav"),
   ('e', "e.wav"), ('f', "f.wav"), ('g', "g.wav"), ('h', "h.wav"),
   ('i', "i.wav"), ('j', "j.wav"), ('k', "k.wav"), ('l', "l.wav"),
   ('m', "m.wav"), ('n', "n.wav"), ('o', "o.wav"), ('p', "p.wav"),
   ('q', "q.wav"), ('r', "r.wav"), ('s', "s.wav"), ('t', "t.wav"),
   ('u', "u.wav"), ('v', "v.wav"), ('w', "w.wav"), ('x', "x.wav"),
   ('y', "y.wav"), ('z', "z.wav")]

/-- Lookup in the phonics table (`phonicsMap[char]`). -/
def lookupChar : List (Char × String) → Char → Option String
  | [], _ => none
  | (k, v) :: rest, c => if c = k then some v else lookupChar rest c

/-- Go's `strings.HasSuffix(s, p)`: `len(s) >= len(p)` and the last
`len(p)` characters of `s` equal `p`. -/
def hasSuffix (s p : String) : Bool :=
  decide (p.data.length ≤ s.data.length) &&
    s.data.drop (s.data.length - p.data.length) == p.data

/-- `loadSound` (src/main.go lines 83-121).  Returns the result, the
cache after the call, and the number of decode operations performed.
On a cache hit the hard-coded format 44100/2/2 is reported; on a miss the
file is opened, the decoder is chosen by filename suffix (`.mp3` first,
then `.wav`), the decoded buffer is stored under the path and returned
together with the decoder's format. -/
def loadSound (env : Env) (cache : List (String × Buffer)) (soundPath : String) :
    Except String (Buffer × Format) × List (String × Buffer) × Nat :=
  match lookupCache cache soundPath with
  | some buffer => (Except.ok (buffer, canonicalFormat), cache, 0)
  | none =>
    match env.openErr ("sounds/" ++ soundPath) with
    | some e => (Except.error e, cache, 0)
    | none =>
      if hasSuffix soundPath ".mp3" then
        match env.mp3Decode soundPath with
        | Except.error e => (Except.error e, cache, 1)
        | Except.ok buf =>
            (Except.ok (buf, buf.format), (soundPath, buf) :: cache, 1)
      else if hasSuffix soundPath ".wav" then
        match env.wavDecode soundPath with
        | Except.error e => (Except.error e, cache, 1)
        | Except.ok buf =>
            (Except.ok (buf, buf.format), (soundPath, buf) :: cache, 1)
      else
        (Except.error ("unsupported format: " ++ soundPath), cache, 0)

/-- Mutable state shared by the playback path: the sound cache and the
`speakerInitialized` flag. -/
structure PlayerState where
  cache : List (String × Buffer)
  speakerInitialized : Bool
deriving Repr

/-- An observable playback event on the audio device: `speaker.Play`
starting a clip, and the done-callback reporting its completion. -/
inductive PlayEvent where
  | start (soundPath : String)
  | finish (soundPath : String)
deriving DecidableEq, Repr

/-- `playSound` (src/main.go lines 123-147).  Loads the sound (skipping
with a diagnostic log on failure), lazily initializes the speaker
(skipping on failure), then plays the clip and blocks until the done
callback fires — hence a successful call contributes the two events
`start`/`finish` back to back.  Returns the new state, the device events,
and the diagnostic log lines. -/
def playSound (env : Env) (verbose : Bool) (st : PlayerState) (soundPath : String) :
    PlayerState × List PlayEvent × List String :=
  match loadSound env st.cache soundPath with
  | (Except.error e, cache2, _) =>
      ({ st with cache := cache2 }, [],
       if verbose then ["Failed to load sound " ++ soundPath ++ ": " ++ e] else [])
  | (Except.ok _, cache2, _) =>
      let st2 : PlayerState := { st with cache := cache2 }
      if st2.speakerInitialized then
        (st2, [PlayEvent.start soundPath, PlayEvent.finish soundPath], [])
      else if env.speakerInitOK then
        ({ st2 with speakerInitialized := true },
         [PlayEvent.start soundPath, PlayEvent.finish soundPath], [])
      else
        (st2, [], if verbose then ["Failed to initialize speaker"] else [])

/-- `soundPlayer` (src/main.go lines 149-153): the single consumer loop,
run on the identifiers dequeued from the play queue in order.  Each
`playSound` call returns only after its clip has finished, so the loop's
device events are the concatenation of the per-clip event blocks. -/
def soundPlayer (env : Env) (verbose : Bool) (st : PlayerState) :
    List String → PlayerState × List PlayEvent × List String
  | [] => (st, [], [])
  | x :: xs =>
    let r := playSound env verbose st x
    let rest := soundPlayer env verbose r.1 xs
    (rest.1, r.2.1 ++ rest.2.1, r.2.2 ++ rest.2.2)

/-- Capacity of `playQueue = make(chan string, 100)` (src/main.go line 56). -/
def queueCapacity : Nat := 100

/-- The non-blocking send `select { case playQueue <- soundFile: ... default: ... }`
on the buffered channel: accepted (and appended) iff a buffer slot is free. -/
def tryEnqueue (q : List String) (s : String) : Bool × List String :=
  if q.length < queueCapacity then (true, q ++ [s]) else (false, q)

/-- A blocking receive from the channel buffer: the oldest element, if any. -/
def dequeueFront : List String → Option (String × List String)
  | [] => none
  | x :: xs => some (x, xs)

/-- Repeatedly dequeue until the queue is empty, collecting the
identifiers in the order the consumer receives them. -/
def drain : List String → List String
  | [] => []
  | x :: xs =>
    match dequeueFront (x :: xs) with
    | none => []
    | some (y, _) => y :: drain xs

/-- Enqueue a list of identifiers one after the other, keeping whichever
are accepted (the state of the channel buffer after the sends). -/
def enqueueList (q : List String) (xs : List String) : List String :=
  xs.foldl (fun acc s => (tryEnqueue acc s).2) q

/-- All of the given sends are accepted when performed in order. -/
def allAccepted : List String → List String → Bool
  | _, [] => true
  | q, x :: rest =>
    let r := tryEnqueue q x
    r.1 && allAccepted r.2 rest

/-- `handleKeyPress` (src/main.go lines 155-169).  Looks the character up
in the phonics table; on a match, optionally logs, then performs the
non-blocking enqueue, logging a drop in verbose mode.  Returns the queue
after the call, the attempted identifier with its accept decision (none
when the character has no mapping), and the log lines. -/
def handleKeyPress (verbose : Bool) (q : List String) (c : Char) :
    List String × Option (String × Bool) × List String :=
  match lookupChar phonicsMap c with
  | none => (q, none, [])
  | some soundFile =>
    let l1 : List String :=
      if verbose then
        ["Key pressed: " ++ String.mk [c] ++ " - Playing: " ++ soundFile]
      else []
    let r := tryEnqueue q soundFile
    if r.1 then (r.2, some (soundFile, true), l1)
    else (r.2, some (soundFile, false),
          l1 ++ (if verbose then ["Sound queue full, skipping"] else []))

/-- The lowercasing done in `main` before `handleKeyPress` is called:
`strings.ToLower(string(char))[0]`, which for the ASCII characters the
claims range over is plain ASCII lowercasing. -/
def goToLower (c : Char) : Char :=
  if 'A' ≤ c ∧ c ≤ 'Z' then Char.ofNat (c.toNat + 32) else c

/-- The dispatch of one key character as `main` performs it: lowercase,
then look up in the fixed table. -/
def dispatch (c : Char) : Option String :=
  lookupChar phonicsMap (goToLower c)

/-- One key event as processed by `main`'s event loop: lowercase the
character, then `handleKeyPress`. -/
def processKeyChar (verbose : Bool) (q : List String) (c : Char) :
    List String × Option (String × Bool) × List String :=
  handleKeyPress verbose q (goToLower c)

/-- A whole input key sequence through `main`'s loop: the final queue,
the per-key enqueue attempts/decisions, and the log lines. -/
def processKeys (verbose : Bool) (q : List String) :
    List Char → List String × List (Option (String × Bool)) × List String
  | [] => (q, [], [])
  | c :: cs =>
    let r := processKeyChar verbose q c
    let rest := processKeys verbose r.1 cs
    (rest.1, r.2.1 :: rest.2.1, r.2.2 ++ rest.2.2)

/-- The 26 file names of the fixed mapping, in the order preload visits
them (Go map iteration order is unspecified; any fixed order represents
one run). -/
def phonicsFiles : List String := phonicsMap.map (fun p => p.2)

/-- The body of `preloadSounds` (src/main.go lines 176-181): load each
file in turn, logging failures in verbose mode and continuing. -/
def preloadLoop (env : Env) (verbose : Bool) :
    List (String × Buffer) → List String → List (String × Buffer) × List String
  | cache, [] => (cache, [])
  | cache, f :: fs =>
    let r := loadSound env cache f
    let l : List String :=
      match r.1 with
      | Except.error e =>
          if verbose then ["Failed to preload " ++ f ++ ": " ++ e] else []
      | Except.ok _ => []
    let rest := preloadLoop env verbose r.2.1 fs
    (rest.1, l ++ rest.2)

/-- `preloadSounds` (src/main.go lines 171-186) over the full mapping. -/
def preloadSounds (env : Env) (verbose : Bool)
    (cache : List (String × Buffer)) : List (String × Buffer) × List String :=
  preloadLoop env verbose cache phonicsFiles

/-- Whether the miss path of `loadSound` would succeed for this file in
this environment (independent of the cache): the embedded file opens and
the suffix-selected decoder succeeds. -/
def exceptOK : Except String Buffer → Bool
  | Except.ok _ => true
  | Except.error _ => false

def decodesOK (env : Env) (f : String) : Bool :=
  match env.openErr ("sounds/" ++ f) with
  | some _ => false
  | none =>
    if hasSuffix f ".mp3" then exceptOK (env.mp3Decode f)
    else if hasSuffix f ".wav" then exceptOK (env.wavDecode f)
    else false

/-- Number of `start` events in a device trace. -/
def countStarts : List PlayEvent → Nat
  | [] => 0
  | PlayEvent.start _ :: t => countStarts t + 1
  | PlayEvent.finish _ :: t => countStarts t

/-- Number of `finish` events in a device trace. -/
def countFinishes : List PlayEvent → Nat
  | [] => 0
  | PlayEvent.start _ :: t => countFinishes t
  | PlayEvent.finish _ :: t => countFinishes t + 1

/-- A well-behaved environment for concrete runs: every file opens, wav
decoding yields a canonical-format clip, the speaker initializes. -/
def env0 : Env :=
  { openErr := fun _ => none,
    mp3Decode := fun _ => Except.error "mp3: no sync word",
    wavDecode := fun _ => Except.ok { format := canonicalFormat, samples := [0, 1] },
    speakerInitOK := true }

/-- An environment whose wav decoder reports a non-canonical source
format (22050 Hz mono), as beep's `wav.Decode` does for such a file. -/
def envNonCanonical : Env :=
  { openErr := fun _ => none,
    mp3Decode := fun _ => Except.error "mp3: no sync word",
    wavDecode := fun _ =>
      Except.ok { format := { sampleRate := 22050, numChannels := 1, precision := 2 },
                  samples := [5] },
    speakerInitOK := true }

/-- An environment whose wav decoder always fails (e.g. every asset is
corrupted), for exercising the error paths. -/
def envDecodeFail : Env :=
  { openErr := fun _ => none,
    mp3Decode := fun _ => Except.error "mp3: no sync word",
    wavDecode := fun _ => Except.error "wav: missing RIFF header",
    speakerInitOK := true }

/-- An environment in which only `sounds/a.wav` exists, for exercising
preload tolerance of individual failures. -/
def envOnlyA : Env :=
  { openErr := fun s =>
      if s = "sounds/a.wav" then none else some ("open " ++ s ++ ": file does not exist"),
    mp3Decode := fun _ => Except.error "mp3: no sync word",
    wavDecode := fun _ => Except.ok { format := canonicalFormat, samples := [0, 1] },
    speakerInitOK := true }

/-- A concrete initial player state with an empty cache and the speaker
already initialized (as after `main`'s eager `initSpeaker`). -/
def st0 : PlayerState := { cache := [], speakerInitialized := true }

/-- The 26 lowercase letters, as the keys of the phonics table. -/
def lowercaseLetters : List Char := phonicsMap.map (fun p => p.1)

/-! ### Shared lemmas about `loadSound` and the queue -/

/-- A failing `loadSound` leaves the cache exactly as it was. -/
theorem loadSound_error_cache (env : Env) (cache : List (String × Buffer))
    (p e : String) (h : (loadSound env cache p).1 = Except.error e) :
    (loadSound env cache p).2.1 = cache := by
  cases hl : lookupCache cache p with
  | some b => simp [loadSound, hl] at h
  | none =>
    cases ho : env.openErr ("sounds/" ++ p) with
    | some e2 => simp [loadSound, hl, ho]
    | none =>
      cases h3 : hasSuffix p ".mp3" with
      | true =>
        cases hd : env.mp3Decode p with
        | error e2 => simp [loadSound, hl, ho, h3, hd]
        | ok buf => simp [loadSound, hl, ho, h3, hd] at h
      | false =>
        cases h4 : hasSuffix p ".wav" with
        | true =>
          cases hd : env.wavDecode p with
          | error e2 => simp [loadSound, hl, ho, h3, h4, hd]
          | ok buf => simp [loadSound, hl, ho, h3, h4, hd] at h
        | false => simp [loadSound, hl, ho, h3, h4]

/-- The cache after a `loadSound` call is either unchanged or has exactly
one new entry, keyed by the requested path. -/
theorem loadSound_cache_shape (env : Env) (cache : List (String × Buffer))
    (p : String) :
    (loadSound env cache p).2.1 = cache ∨
    ∃ buf, (loadSound env cache p).2.1 = (p, buf) :: cache := by
  cases hl : lookupCache cache p with
  | some b => left; simp [loadSound, hl]
  | none =>
    cases ho : env.openErr ("sounds/" ++ p) with
    | some e2 => left; simp [loadSound, hl, ho]
    | none =>
      cases h3 : hasSuffix p ".mp3" with
      | true =>
        cases hd : env.mp3Decode p with
        | error e2 => left; simp [loadSound, hl, ho, h3, hd]
        | ok buf => right; exact ⟨buf, by simp [loadSound, hl, ho, h3, hd]⟩
      | false =>
        cases h4 : hasSuffix p ".wav" with
        | true =>
          cases hd : env.wavDecode p with
          | error e2 => left; simp [loadSound, hl, ho, h3, h4, hd]
          | ok buf => right; exact ⟨buf, by simp [loadSound, hl, ho, h3, h4, hd]⟩
        | false => left; simp [loadSound, hl, ho, h3, h4]

/-- After a successful `loadSound`, the returned buffer is in the
returned cache under the requested path. -/
theorem loadSound_ok_lookup (env : Env) (cache : List (String × Buffer))
    (p : String) (buf : Buffer) (fmt : Format)
    (cache2 : List (String × Buffer)) (n : Nat)
    (h : loadSound env cache p = (Except.ok (buf, fmt), cache2, n)) :
    lookupCache cache2 p = some buf := by
  cases hl : lookupCache cache p with
  | some b =>
    simp [loadSound, hl] at h
    obtain ⟨⟨h1, _⟩, h2, _⟩ := h
    rw [← h2, hl, h1]
  | none =>
    cases ho : env.openErr ("sounds/" ++ p) with
    | some e2 => simp [loadSound, hl, ho] at h
    | none =>
      cases h3 : hasSuffix p ".mp3" with
      | true =>
        cases hd : env.mp3Decode p with
        | error e2 => simp [loadSound, hl, ho, h3, hd] at h
        | ok b =>
          simp [loadSound, hl, ho, h3, hd] at h
          obtain ⟨⟨h1, _⟩, h2, _⟩ := h
          rw [← h2, lookupCache, if_pos rfl, h1]
      | false =>
        cases h4 : hasSuffix p ".wav" with
        | true =>
          cases hd : env.wavDecode p with
          | error e2 => simp [loadSound, hl, ho, h3, h4, hd] at h
          | ok b =>
            simp [loadSound, hl, ho, h3, h4, hd] at h
            obtain ⟨⟨h1, _⟩, h2, _⟩ := h
            rw [← h2, lookupCache, if_pos rfl, h1]
        | false => simp [loadSound, hl, ho, h3, h4] at h

/-- `loadSound` never removes cache entries. -/
theorem loadSound_preserves_entry (env : Env) (cache : List (String × Buffer))
    (f g : String) (h : lookupCache cache g ≠ none) :
    lookupCache (loadSound env cache f).2.1 g ≠ none := by
  rcases loadSound_cache_shape env cache f with hs | ⟨buf, hs⟩
  · rw [hs]; exact h
  · rw [hs, lookupCache]
    by_cases hg : g = f
    · simp [hg]
    · simp [hg]; exact h


/-- `drain` returns the queue contents front to back. -/
theorem drain_eq (q : List String) : drain q = q := by
  induction q with
  | nil => rfl
  | cons x xs ih => simp [drain, dequeueFront, ih]

/-- Enqueueing a list that fits entirely: every send is accepted and the
buffer ends as the old contents followed by the new ones in order. -/
theorem enqueueList_all (xs q : List String)
    (h : q.length + xs.length ≤ queueCapacity) :
    allAccepted q xs = true ∧ enqueueList q xs = q ++ xs := by
  induction xs generalizing q with
  | nil => simp [allAccepted, enqueueList]
  | cons x rest ih =>
    have hlt : q.length < queueCapacity := by
      simp only [List.length_cons] at h; omega
    have he : tryEnqueue q x = (true, q ++ [x]) := by simp [tryEnqueue, hlt]
    have h2 : (q ++ [x]).length + rest.length ≤ queueCapacity := by
      simp only [List.length_append, List.length_cons, List.length_nil,
        List.length_cons] at h ⊢
      omega
    obtain ⟨ha, hl⟩ := ih (q ++ [x]) h2
    refine ⟨?_, ?_⟩
    · simp [allAccepted, he, ha]
    · simp only [enqueueList, List.foldl_cons, he] at hl ⊢
      rw [hl]
      simp

/-! ### Claims -/

/-- C1: the playback queue has fixed capacity 100; with a full queue,
`TryEnqueue` (the non-blocking channel send) returns accepted=false and
leaves the queue contents unchanged, and no state with at most 100 items
ever grows beyond 100. -/
theorem playQueue_capacity_drop_on_full :
    queueCapacity = 100 ∧
    (∀ (q : List String) (s : String), q.length = queueCapacity →
        tryEnqueue q s = (false, q)) ∧
    (∀ (q : List String) (s : String), q.length ≤ queueCapacity →
        ((tryEnqueue q s).2).length ≤ queueCapacity) := by
  refine ⟨rfl, ?_, ?_⟩
  · intro q s h
    have : ¬ q.length < queueCapacity := by omega
    simp [tryEnqueue, this]
  · intro q s h
    by_cases hlt : q.length < queueCapacity
    · simp only [tryEnqueue, if_pos hlt, List.length_append, List.length_cons,
        List.length_nil]
      omega
    · simp [tryEnqueue, hlt, h]

/-- Witness for C1 at a concrete full queue. -/
theorem playQueue_capacity_drop_on_full_witness :
    tryEnqueue (List.replicate 100 "a.wav") "b.wav" =
      (false, List.replicate 100 "a.wav") :=
  playQueue_capacity_drop_on_full.2.1 (List.replicate 100 "a.wav") "b.wav"
    (by simp [queueCapacity])

/-- C2: the queue is strictly FIFO: any batch of sends that fits in the
free space is fully accepted, and the consumer then dequeues the previous
contents followed by the new identifiers in exactly their send order. -/
theorem playQueue_fifo (q xs : List String)
    (h : q.length + xs.length ≤ queueCapacity) :
    allAccepted q xs = true ∧ drain (enqueueList q xs) = drain q ++ xs := by
  obtain ⟨ha, hl⟩ := enqueueList_all xs q h
  exact ⟨ha, by rw [hl, drain_eq, drain_eq]⟩

/-- Witness for C2: enqueuing A, B, C into an empty queue dequeues
A, B, C in that order. -/
theorem playQueue_fifo_witness :
    allAccepted [] ["a.wav", "b.wav", "c.wav"] = true ∧
    drain (enqueueList [] ["a.wav", "b.wav", "c.wav"]) =
      drain [] ++ ["a.wav", "b.wav", "c.wav"] :=
  playQueue_fifo [] ["a.wav", "b.wav", "c.wav"] (by simp [queueCapacity])

/-- C10: on any failed load the sound cache is left unchanged — no entry
is stored for the identifier, so a later call starts from the same cache
state and attempts the decode again. -/
theorem failed_load_cache_unchanged (env : Env)
    (cache : List (String × Buffer)) (p e : String)
    (h : (loadSound env cache p).1 = Except.error e) :
    (loadSound env cache p).2.1 = cache ∧
    lookupCache (loadSound env cache p).2.1 p = lookupCache cache p := by
  have hc := loadSound_error_cache env cache p e h
  exact ⟨hc, by rw [hc]⟩

/-- Witness for C10 at an unsupported extension. -/
theorem failed_load_cache_unchanged_witness :
    (loadSound env0 [] "a.txt").2.1 = [] ∧
    lookupCache (loadSound env0 [] "a.txt").2.1 "a.txt" =
      lookupCache [] "a.txt" :=
  failed_load_cache_unchanged env0 [] "a.txt" "unsupported format: a.txt"
    (by rfl)

/-- C4: `Get` is idempotent: after any successful load, calling again
with the same identifier succeeds with the very same buffer (identical
decoded sample data), leaves the cache untouched, and performs zero
decode operations (pure cache hit). -/
theorem get_idempotent (env : Env) (cache : List (String × Buffer))
    (p : String) (buf : Buffer) (fmt : Format)
    (cache2 : List (String × Buffer)) (n : Nat)
    (h : loadSound env cache p = (Except.ok (buf, fmt), cache2, n)) :
    loadSound env cache2 p = (Except.ok (buf, canonicalFormat), cache2, 0) := by
  have hl := loadSound_ok_lookup env cache p buf fmt cache2 n h
  simp [loadSound, hl]

/-- Witness for C4 at a concrete first load. -/
theorem get_idempotent_witness :
    loadSound env0 [("a.wav", { format := canonicalFormat, samples := [0, 1] })]
        "a.wav" =
      (Except.ok ({ format := canonicalFormat, samples := [0, 1] },
          canonicalFormat),
        [("a.wav", { format := canonicalFormat, samples := [0, 1] })], 0) :=
  get_idempotent env0 [] "a.wav"
    { format := canonicalFormat, samples := [0, 1] } canonicalFormat
    [("a.wav", { format := canonicalFormat, samples := [0, 1] })] 1 (by rfl)


/-- C5 counterexample: the code performs no conversion to the canonical
playback format — decoding a 22050 Hz mono wav stores a 22050 Hz mono
clip in the cache, so not every cached clip is canonical. -/
theorem get_no_canonical_conversion_counterexample :
    lookupCache (loadSound envNonCanonical [] "a.wav").2.1 "a.wav" =
      some { format := { sampleRate := 22050, numChannels := 1, precision := 2 },
             samples := [5] } ∧
    ({ sampleRate := 22050, numChannels := 1, precision := 2 } : Format) ≠
      canonicalFormat :=
  ⟨by rfl, by decide⟩

/-- C5 (amended): on a cache miss, `Get` opens the asset, decodes it with
the decoder selected by filename extension (`.mp3` compressed, `.wav`
uncompressed), stores the decoded buffer keyed by the identifier and
returns it — in the decoder's output format, with no conversion to the
canonical playback format. -/
theorem get_miss_stores_decoded (env : Env) (cache : List (String × Buffer))
    (p : String) (buf : Buffer)
    (hmiss : lookupCache cache p = none)
    (hopen : env.openErr ("sounds/" ++ p) = none) :
    (hasSuffix p ".mp3" = true → env.mp3Decode p = Except.ok buf →
        loadSound env cache p =
          (Except.ok (buf, buf.format), (p, buf) :: cache, 1)) ∧
    (hasSuffix p ".mp3" = false → hasSuffix p ".wav" = true →
        env.wavDecode p = Except.ok buf →
        loadSound env cache p =
          (Except.ok (buf, buf.format), (p, buf) :: cache, 1)) := by
  constructor
  · intro h3 hd
    simp [loadSound, hmiss, hopen, h3, hd]
  · intro h3 h4 hd
    simp [loadSound, hmiss, hopen, h3, h4, hd]

/-- Witness for C5 (amended) at a concrete wav load. -/
theorem get_miss_stores_decoded_witness :
    loadSound env0 [] "a.wav" =
      (Except.ok ({ format := canonicalFormat, samples := [0, 1] },
          Buffer.format { format := canonicalFormat, samples := [0, 1] }),
        [("a.wav", { format := canonicalFormat, samples := [0, 1] })], 1) :=
  (get_miss_stores_decoded env0 [] "a.wav"
      { format := canonicalFormat, samples := [0, 1] } (by rfl) (by rfl)).2
    (by decide) (by decide) (by rfl)

/-- C6: dispatch is case-insensitive over exactly the 26 Latin letters:
each lowercase letter and its uppercase form dispatch to the lowercase
letter's file name, every ASCII non-letter dispatches to no identifier,
and an unmatched character leaves the queue untouched and enqueues
nothing. -/
theorem dispatch_case_insensitive :
    (∀ c ∈ lowercaseLetters,
        dispatch c = some (String.mk [c] ++ ".wav") ∧
        dispatch (Char.ofNat (c.toNat - 32)) = dispatch c) ∧
    (∀ n : Nat, n < 128 → ¬ ((97 ≤ n ∧ n ≤ 122) ∨ (65 ≤ n ∧ n ≤ 90)) →
        dispatch (Char.ofNat n) = none) ∧
    (∀ (v : Bool) (q : List String) (c : Char), dispatch c = none →
        processKeyChar v q c = (q, none, [])) := by
  refine ⟨by decide, by decide, ?_⟩
  intro v q c h
  unfold dispatch at h
  unfold processKeyChar handleKeyPress
  rw [h]

/-- Witness for C6 at the letter a (both cases) and the digit 5. -/
theorem dispatch_case_insensitive_witness :
    dispatch 'a' = some (String.mk ['a'] ++ ".wav") ∧
    dispatch (Char.ofNat ('a'.toNat - 32)) = dispatch 'a' ∧
    dispatch (Char.ofNat 53) = none ∧
    processKeyChar true ["x.wav"] (Char.ofNat 53) = (["x.wav"], none, []) :=
  ⟨(dispatch_case_insensitive.1 'a' (by decide)).1,
   (dispatch_case_insensitive.1 'a' (by decide)).2,
   dispatch_case_insensitive.2.1 53 (by decide) (by decide),
   dispatch_case_insensitive.2.2 true ["x.wav"] (Char.ofNat 53)
     (dispatch_case_insensitive.2.1 53 (by decide) (by decide))⟩


/-- A `playSound` call whose load fails returns the state unchanged, no
device events, and only a diagnostic line. -/
theorem playSound_error (env : Env) (v : Bool) (st : PlayerState) (p e : String)
    (h : (loadSound env st.cache p).1 = Except.error e) :
    playSound env v st p =
      (st, [],
       if v then ["Failed to load sound " ++ p ++ ": " ++ e] else []) := by
  have hc := loadSound_error_cache env st.cache p e h
  rcases hEq : loadSound env st.cache p with ⟨r, c, n⟩
  rw [hEq] at h hc
  simp only at h hc
  subst h
  subst hc
  unfold playSound
  rw [hEq]

/-- C7: if an identifier's backing asset is missing or undecodable, the
load signals an error value (for a failing wav decode, the decoder's own
error verbatim — the underlying cause) instead of panicking; `playSound`
then plays nothing, and the consumer loop's state and device events on
the remaining queue are exactly as if the bad item had not been there. -/
theorem decode_error_skipped (env : Env) (v : Bool) (st : PlayerState)
    (p : String) (rest : List String) (e : String)
    (h : (loadSound env st.cache p).1 = Except.error e) :
    (playSound env v st p).2.1 = [] ∧
    (soundPlayer env v st (p :: rest)).1 = (soundPlayer env v st rest).1 ∧
    (soundPlayer env v st (p :: rest)).2.1 = (soundPlayer env v st rest).2.1 ∧
    (∀ (cache : List (String × Buffer)) (e2 : String),
        lookupCache cache p = none →
        env.openErr ("sounds/" ++ p) = none →
        hasSuffix p ".mp3" = false → hasSuffix p ".wav" = true →
        env.wavDecode p = Except.error e2 →
        (loadSound env cache p).1 = Except.error e2) := by
  have hp := playSound_error env v st p e h
  refine ⟨by rw [hp], ?_, ?_, ?_⟩
  · simp [soundPlayer, hp]
  · simp [soundPlayer, hp]
  · intro cache e2 hmiss hopen h3 h4 hd
    simp [loadSound, hmiss, hopen, h3, h4, hd]

/-- Witness for C7: with every wav decode failing, the engine skips the
bad head item and proceeds to the next queued identifier. -/
theorem decode_error_skipped_witness :
    (playSound envDecodeFail false st0 "a.wav").2.1 = [] ∧
    (soundPlayer envDecodeFail false st0 ["a.wav", "b.wav"]).1 =
      (soundPlayer envDecodeFail false st0 ["b.wav"]).1 ∧
    (soundPlayer envDecodeFail false st0 ["a.wav", "b.wav"]).2.1 =
      (soundPlayer envDecodeFail false st0 ["b.wav"]).2.1 ∧
    (loadSound envDecodeFail [] "a.wav").1 =
      Except.error "wav: missing RIFF header" := by
  have h := decode_error_skipped envDecodeFail false st0 "a.wav" ["b.wav"]
    "wav: missing RIFF header" (by rfl)
  exact ⟨h.1, h.2.1, h.2.2.1,
    h.2.2.2 [] "wav: missing RIFF header" rfl rfl (by decide) (by decide) rfl⟩

/-- If the miss path would succeed for a file, any `loadSound` call for
it leaves it present in the cache. -/
theorem loadSound_stores (env : Env) (cache : List (String × Buffer))
    (f : String) (h : decodesOK env f = true) :
    lookupCache (loadSound env cache f).2.1 f ≠ none := by
  cases hl : lookupCache cache f with
  | some b => simp [loadSound, hl]
  | none =>
    unfold decodesOK at h
    cases ho : env.openErr ("sounds/" ++ f) with
    | some e => rw [ho] at h; simp at h
    | none =>
      rw [ho] at h
      cases h3 : hasSuffix f ".mp3" with
      | true =>
        rw [h3] at h
        simp only [if_true] at h
        cases hd : env.mp3Decode f with
        | error e => rw [hd] at h; simp [exceptOK] at h
        | ok buf => simp [loadSound, hl, ho, h3, hd, lookupCache]
      | false =>
        rw [h3] at h
        simp only [Bool.false_eq_true, if_false] at h
        cases h4 : hasSuffix f ".wav" with
        | true =>
          rw [h4] at h
          simp only [if_true] at h
          cases hd : env.wavDecode f with
          | error e => rw [hd] at h; simp [exceptOK] at h
          | ok buf => simp [loadSound, hl, ho, h3, h4, hd, lookupCache]
        | false =>
          rw [h4] at h
          simp at h

/-- The preload loop never deletes a cache entry. -/
theorem preloadLoop_mono (env : Env) (v : Bool) (fs : List String) :
    ∀ (cache : List (String × Buffer)) (g : String),
      lookupCache cache g ≠ none →
      lookupCache (preloadLoop env v cache fs).1 g ≠ none := by
  induction fs with
  | nil => intro cache g h; simpa [preloadLoop] using h
  | cons x rest ih =>
    intro cache g h
    simp only [preloadLoop]
    exact ih _ g (loadSound_preserves_entry env cache x g h)

/-- Every file in the list whose decode would succeed ends up cached
after the preload loop, whatever happens to the other files. -/
theorem preloadLoop_caches (env : Env) (v : Bool) (fs : List String) :
    ∀ (cache : List (String × Buffer)) (f : String), f ∈ fs →
      decodesOK env f = true →
      lookupCache (preloadLoop env v cache fs).1 f ≠ none := by
  induction fs with
  | nil => intro cache f hmem; simp at hmem
  | cons x rest ih =>
    intro cache f hmem hdec
    rcases List.mem_cons.mp hmem with rfl | hmem2
    · simp only [preloadLoop]
      exact preloadLoop_mono env v rest _ f (loadSound_stores env cache f hdec)
    · simp only [preloadLoop]
      exact ih _ f hmem2 hdec

/-- C8: preload walks the fixed 26-entry mapping and tolerates individual
failures: every identifier whose decode succeeds in the given environment
is cached after `preloadSounds`, no matter which other identifiers fail. -/
theorem preload_tolerates_failures (env : Env) (v : Bool)
    (cache : List (String × Buffer)) (f : String)
    (hmem : f ∈ phonicsFiles) (hdec : decodesOK env f = true) :
    phonicsFiles.length = 26 ∧
    lookupCache (preloadSounds env v cache).1 f ≠ none := by
  refine ⟨by decide, ?_⟩
  unfold preloadSounds
  exact preloadLoop_caches env v phonicsFiles cache f hmem hdec

/-- Witness for C8: only `sounds/a.wav` exists — the other 25 preloads
fail, yet a.wav is cached after preload. -/
theorem preload_tolerates_failures_witness :
    phonicsFiles.length = 26 ∧
    lookupCache (preloadSounds envOnlyA false []).1 "a.wav" ≠ none :=
  preload_tolerates_failures envOnlyA false [] "a.wav" (by decide) (by rfl)


/-- The verbose flag changes neither the queue after a key press nor the
enqueue decision. -/
theorem handleKeyPress_verbose_indep (q : List String) (c : Char) :
    (handleKeyPress true q c).1 = (handleKeyPress false q c).1 ∧
    (handleKeyPress true q c).2.1 = (handleKeyPress false q c).2.1 := by
  unfold handleKeyPress
  cases lookupChar phonicsMap c with
  | none => simp
  | some f =>
    rcases htr : tryEnqueue q f with ⟨acc, q2⟩
    cases acc <;> simp [htr]

/-- The verbose flag changes neither the player state nor the device
events of one `playSound` call. -/
theorem playSound_verbose_indep (env : Env) (st : PlayerState) (p : String) :
    (playSound env true st p).1 = (playSound env false st p).1 ∧
    (playSound env true st p).2.1 = (playSound env false st p).2.1 := by
  unfold playSound
  rcases hEq : loadSound env st.cache p with ⟨r, c, n⟩
  cases r with
  | error e => simp
  | ok val =>
    cases hs : st.speakerInitialized with
    | true => simp [hs]
    | false =>
      cases hk : env.speakerInitOK with
      | true => simp [hs, hk]
      | false => simp [hs, hk]

/-- C9: the verbosity flag has no effect on playback semantics: for every
key sequence the final queue and the per-key enqueue attempts/decisions
coincide between verbose and quiet runs, and for every dequeued sequence
the consumer's final state and device events coincide as well — only the
log output may differ. -/
theorem verbose_no_playback_effect (q : List String) (cs : List Char)
    (env : Env) (st : PlayerState) (ids : List String) :
    (processKeys true q cs).1 = (processKeys false q cs).1 ∧
    (processKeys true q cs).2.1 = (processKeys false q cs).2.1 ∧
    (soundPlayer env true st ids).1 = (soundPlayer env false st ids).1 ∧
    (soundPlayer env true st ids).2.1 = (soundPlayer env false st ids).2.1 := by
  refine ⟨?_, ?_, ?_, ?_⟩
  case _ =>
    induction cs generalizing q with
    | nil => simp [processKeys]
    | cons c rest ih =>
      obtain ⟨h1, h2⟩ := handleKeyPress_verbose_indep q (goToLower c)
      simp only [processKeys, processKeyChar]
      rw [h1]
      exact ih _
  case _ =>
    induction cs generalizing q with
    | nil => simp [processKeys]
    | cons c rest ih =>
      obtain ⟨h1, h2⟩ := handleKeyPress_verbose_indep q (goToLower c)
      simp only [processKeys, processKeyChar]
      rw [h1, h2]
      rw [ih _]
  case _ =>
    induction ids generalizing st with
    | nil => simp [soundPlayer]
    | cons x xs ih =>
      obtain ⟨h1, h2⟩ := playSound_verbose_indep env st x
      simp only [soundPlayer]
      rw [h1]
      exact ih _
  case _ =>
    induction ids generalizing st with
    | nil => simp [soundPlayer]
    | cons x xs ih =>
      obtain ⟨h1, h2⟩ := playSound_verbose_indep env st x
      simp only [soundPlayer]
      rw [h1, h2]
      rw [ih _]

/-- One `playSound` call either produces no device events (skip) or the
clip's start immediately followed by its finish (the call blocks on the
done channel before returning). -/
theorem playSound_events (env : Env) (v : Bool) (st : PlayerState) (x : String) :
    (playSound env v st x).2.1 = [] ∨
    (playSound env v st x).2.1 = [PlayEvent.start x, PlayEvent.finish x] := by
  unfold playSound
  rcases hEq : loadSound env st.cache x with ⟨r, c, n⟩
  cases r with
  | error e => left; simp
  | ok val =>
    cases hs : st.speakerInitialized with
    | true => right; simp [hs]
    | false =>
      cases hk : env.speakerInitOK with
      | true => right; simp [hs, hk]
      | false => left; simp [hs, hk]

/-- C3: playback is synchronous and non-overlapping: in the device event
trace of the consumer loop, whenever a clip starts, every clip started
earlier has already finished — the prefix before any `start` event holds
as many `finish` events as `start` events, so the engine never begins the
second of two enqueued identifiers before the first has completed. -/
theorem playback_non_overlapping (env : Env) (v : Bool) (ids : List String)
    (st : PlayerState) (p rest : List PlayEvent) (s : String)
    (h : (soundPlayer env v st ids).2.1 = p ++ PlayEvent.start s :: rest) :
    countFinishes p = countStarts p := by
  induction ids generalizing st p with
  | nil => simp [soundPlayer] at h
  | cons x xs ih =>
    simp only [soundPlayer] at h
    rcases playSound_events env v st x with hb | hb <;> rw [hb] at h
    · rw [List.nil_append] at h
      exact ih _ _ h
    · cases p with
      | nil => simp [countFinishes, countStarts]
      | cons e1 p1 =>
        cases p1 with
        | nil => simp at h
        | cons e2 p2 =>
          simp only [List.cons_append, List.cons.injEq] at h
          obtain ⟨he1, he2, h3⟩ := h
          subst he1
          subst he2
          have := ih _ p2 h3
          simp [countFinishes, countStarts, this]

/-- Witness for C3 on a concrete two-clip run: before the second clip
starts, the first has as many finishes as starts. -/
theorem playback_non_overlapping_witness :
    countFinishes [PlayEvent.start "a.wav", PlayEvent.finish "a.wav"] =
      countStarts [PlayEvent.start "a.wav", PlayEvent.finish "a.wav"] :=
  playback_non_overlapping env0 true ["a.wav", "b.wav"] st0
    [PlayEvent.start "a.wav", PlayEvent.finish "a.wav"]
    [PlayEvent.finish "b.wav"] "b.wav" (by decide)

end Phonical
